import Mathlib

/-!
Shallow embedding of `src/rustc/middle/region.rs` (the region/lifetime-scope
resolution pass of the early rustc front end).

Modelling notes, fixed by the source language's semantics (Rust 0.x, 2012):

* `ctxt` is a record with `mut` fields (`bindings`, `queued_locals`,
  `next_param_id`).  Records are passed to the visitor functions by
  reference, so a mutation made while visiting one child is visible when the
  following sibling is visited.  A functional-update expression
  `{... with cx}` builds a *fresh* record, copying the current values of the
  mutable fields; mutations of the fresh record are never seen by the old
  one.  We model this by splitting the context into an immutable part `Imm`
  and a mutable cell `Mut`: every resolve function receives the current
  cell's contents and returns the contents of *that same cell* after the
  visit, while handlers that build a fresh record (`resolve_block`,
  `resolve_arm`, `resolve_item`, the `expr_fn`/`expr_fn_block` case of
  `resolve_expr`) run their children against the fresh cell and return the
  caller's cell unchanged.
* The five output hashmaps of `region_map` and the session's diagnostic list
  are global (`@`-boxed / session-owned): all writes are threaded through a
  single state `St`.  `hashmap::insert` overwrites, which an association
  list with prepend-on-insert and first-match-wins lookup reproduces.
* `session::span_err` records a recoverable diagnostic and returns;
  `session::span_bug` aborts the pass, modelled by `Except.error`.
* `uint` is ℕ; the only place where unsigned wraparound matters is the
  index arithmetic of `nearest_common_ancestor`, where the subtraction is
  taken explicitly modulo `2 ^ 64`, and vector indexing is bounds-checked
  (`vecGet` returning `none` models the runtime bounds failure).
* The AST is embedded as one inductive `Ast` with one constructor per node
  kind the pass dispatches on; sequences of children (`seq_nil`/`seq_cons`)
  stand for the vectors the real visitor iterates over (fn argument types,
  block statements, alt arms, tuple sub-patterns, ...).  The visitor order
  is that of `syntax::visit` of the same era: an item visits its signature
  types and then its body; an arm visits its patterns, then its guard, then
  its body block; a local visits its pattern and then its type.
-/

namespace RegionPass

/-- `2 ^ 64`: the modulus of `uint` arithmetic (64-bit build). -/
def wordModulus : Nat := 2 ^ 64

/-- `ty::region`: a resolved region tag. -/
inductive Region where
  | re_param (i : Nat)
  | re_block (id : Nat)
  | re_self
deriving DecidableEq, Repr

/-- `parent`: the type of the most immediate parent node. -/
inductive Parent where
  | pa_fn_item (id : Nat)
  | pa_block (id : Nat)
  | pa_nested_fn (id : Nat)
  | pa_item (id : Nat)
  | pa_crate
deriving DecidableEq, Repr

/-- The region annotation carried by an `ast::ty_rptr` node. -/
inductive RegionAnn where
  | re_inferred
  | re_self
  | re_named (name : String)
deriving DecidableEq, Repr

/-- The fragment of `ast::def` that `resolve_pat` dispatches on: an
identifier pattern either names an enum variant (`def_variant`) or anything
else, in which case it is a genuine local binding. -/
inductive Def where
  | def_variant (enumId : Nat) (variantId : Nat)
  | def_other
deriving DecidableEq, Repr

/-- The syntax-tree fragment traversed by the pass, one constructor per node
kind the visitor dispatches on; `seq_nil`/`seq_cons` are the child vectors
of the real AST. -/
inductive Ast where
  | ty_nil (id : Nat)
  | ty_vec (id : Nat) (sub : Ast)
  | ty_rptr (id : Nat) (region_id : Nat) (ann : RegionAnn) (sub : Ast)
  | pat_ident (id : Nat)
  | pat_tup (id : Nat) (subs : Ast)
  | expr_lit (id : Nat)
  | expr_addr_of (id : Nat) (sub : Ast)
  | expr_alt (id : Nat) (scrut : Ast) (arms : Ast)
  | expr_fn_block (id : Nat) (args : Ast) (body : Ast)
  | blk (id : Nat) (stmts : Ast)
  | stmt_local (id : Nat) (t : Ast) (p : Ast)
  | arm (pats : Ast) (guard : Ast) (body : Ast)
  | item_fn (id : Nat) (args : Ast) (body : Ast)
  | item_enum (id : Nat) (tys : Ast)
  | item_impl (id : Nat) (tys : Ast)
  | item_other (id : Nat) (tys : Ast)
  | seq_nil
  | seq_cons (hd : Ast) (tl : Ast)
deriving DecidableEq, Repr

/-- The `node_id` of an AST node (0 for the administrative sequence nodes,
which never stand in a position whose id is consulted). -/
def Ast.nid : Ast → Nat
  | .ty_nil i => i
  | .ty_vec i _ => i
  | .ty_rptr i _ _ _ => i
  | .pat_ident i => i
  | .pat_tup i _ => i
  | .expr_lit i => i
  | .expr_addr_of i _ => i
  | .expr_alt i _ _ => i
  | .expr_fn_block i _ _ => i
  | .blk i _ => i
  | .stmt_local i _ _ => i
  | .arm _ _ _ => 0
  | .item_fn i _ _ => i
  | .item_enum i _ => i
  | .item_impl i _ => i
  | .item_other i _ => i
  | .seq_nil => 0
  | .seq_cons _ _ => 0

/-- `binding`: records the parameter ID of a region name. -/
structure Binding where
  name : String
  id : Nat
deriving DecidableEq, Repr

/-- Hashmap lookup on the association-list model: first match wins, i.e. the
most recent `insert` for the key. -/
def mapFind {α : Type} : List (Nat × α) → Nat → Option α
  | [], _ => none
  | (k, v) :: t, k' => if k = k' then some v else mapFind t k'

/-- Hashmap insert on the association-list model (overwrite = shadow). -/
def mapInsert {α : Type} (l : List (Nat × α)) (k : Nat) (v : α) :
    List (Nat × α) :=
  (k, v) :: l

/-- `list::find(*bindings, {|b| ident == b.name})`. -/
def listFind : List Binding → String → Option Binding
  | [], _ => none
  | b :: t, nm => if nm = b.name then some b else listFind t nm

/-- The global, write-once-per-key state of the pass: the five maps of
`region_map` plus the session's accumulated recoverable diagnostics. -/
structure St where
  parents : List (Nat × Nat)
  ast_type_to_region : List (Nat × Region)
  local_blocks : List (Nat × Nat)
  ast_type_to_inferred_region : List (Nat × Region)
  rvalue_to_block : List (Nat × Nat)
  diags : List String
deriving DecidableEq, Repr

def St.empty : St := ⟨[], [], [], [], [], []⟩

def insertParent (st : St) (k v : Nat) : St :=
  ⟨mapInsert st.parents k v, st.ast_type_to_region, st.local_blocks,
   st.ast_type_to_inferred_region, st.rvalue_to_block, st.diags⟩

def insertRegion (st : St) (k : Nat) (r : Region) : St :=
  ⟨st.parents, mapInsert st.ast_type_to_region k r, st.local_blocks,
   st.ast_type_to_inferred_region, st.rvalue_to_block, st.diags⟩

def insertLocal (st : St) (k v : Nat) : St :=
  ⟨st.parents, st.ast_type_to_region, mapInsert st.local_blocks k v,
   st.ast_type_to_inferred_region, st.rvalue_to_block, st.diags⟩

def insertInferred (st : St) (k : Nat) (r : Region) : St :=
  ⟨st.parents, st.ast_type_to_region, st.local_blocks,
   mapInsert st.ast_type_to_inferred_region k r, st.rvalue_to_block,
   st.diags⟩

def insertRvalue (st : St) (k v : Nat) : St :=
  ⟨st.parents, st.ast_type_to_region, st.local_blocks,
   st.ast_type_to_inferred_region, mapInsert st.rvalue_to_block k v,
   st.diags⟩

/-- `sess.span_err`: record a recoverable diagnostic and continue. -/
def addDiag (st : St) (msg : String) : St :=
  ⟨st.parents, st.ast_type_to_region, st.local_blocks,
   st.ast_type_to_inferred_region, st.rvalue_to_block, msg :: st.diags⟩

/-- The mutable fields of `ctxt`: the contents of one context cell.  A
`{... with cx}` functional update snapshots these into a fresh cell. -/
structure Mut where
  bindings : List Binding
  queued_locals : List Nat
  next_param_id : Nat
deriving DecidableEq, Repr

/-- The immutable fields of `ctxt` (the definition map is read-only). -/
structure Imm where
  def_map : List (Nat × Def)
  parent : Parent
  in_alt : Bool
  in_typeclass : Bool
deriving DecidableEq, Repr

/-- `get_inferred_region`: the default region for a type-annotation node,
determined by the current parent scope.  Allocates the next parameter index
at fn-item / nested-fn scope; `span_bug` (fatal) at crate scope. -/
def get_inferred_region (imm : Imm) (m : Mut) :
    Except String (Region × Mut) :=
  match imm.parent with
  | .pa_fn_item _ =>
      .ok (.re_param m.next_param_id,
           ⟨m.bindings, m.queued_locals, m.next_param_id + 1⟩)
  | .pa_nested_fn _ =>
      .ok (.re_param m.next_param_id,
           ⟨m.bindings, m.queued_locals, m.next_param_id + 1⟩)
  | .pa_block block_id => .ok (.re_block block_id, m)
  | .pa_item _ => .ok (.re_param 0, m)
  | .pa_crate => .error "inferred region at crate level?!"

/-- `record_parent`: record `child_id`'s parent scope unless the current
scope is the crate root. -/
def record_parent (imm : Imm) (st : St) (child_id : Nat) : St :=
  match imm.parent with
  | .pa_fn_item parent_id => insertParent st child_id parent_id
  | .pa_item parent_id => insertParent st child_id parent_id
  | .pa_block parent_id => insertParent st child_id parent_id
  | .pa_nested_fn parent_id => insertParent st child_id parent_id
  | .pa_crate => st

/-- The `for local_id in cx.queued_locals` loop of `resolve_block`: parent
every queued local to this block. -/
def drainLocals : List Nat → Nat → St → St
  | [], _, st => st
  | l :: t, b, st => drainLocals t b (insertLocal st l b)

/-- The single depth-first walk: one case per node kind, mirroring the
handlers `resolve_ty`, `resolve_pat`, `resolve_expr`, `resolve_block`,
`resolve_arm`, `resolve_local`, `resolve_item` installed over the default
visitor.  Returns the final global state together with the final contents
of the context cell the caller shares with this node. -/
def resolve : Ast → Imm → Mut → St → Except String (St × Mut)
  | .ty_nil i, imm, m, st => do
      let (r, m1) ← get_inferred_region imm m
      .ok (insertInferred st i r, m1)
  | .ty_vec i sub, imm, m, st => do
      let (r, m1) ← get_inferred_region imm m
      resolve sub imm m1 (insertInferred st i r)
  | .ty_rptr i rid ann sub, imm, m, st => do
      let (r, m1) ← get_inferred_region imm m
      let st1 := insertInferred st i r
      match ann with
      | .re_inferred => resolve sub imm m1 st1
      | .re_self =>
          if imm.in_typeclass then
            resolve sub imm m1 (insertRegion st1 rid .re_self)
          else
            resolve sub imm m1
              (addDiag st1 "the `self` region is not allowed here")
      | .re_named name =>
          match listFind m1.bindings name with
          | some b => resolve sub imm m1 (insertRegion st1 rid (.re_param b.id))
          | none =>
              let idx := m1.next_param_id
              let m2 : Mut :=
                ⟨⟨name, idx⟩ :: m1.bindings, m1.queued_locals, idx + 1⟩
              match imm.parent with
              | .pa_fn_item _ =>
                  resolve sub imm m2 (insertRegion st1 rid (.re_param idx))
              | .pa_nested_fn _ =>
                  resolve sub imm m2 (insertRegion st1 rid (.re_param idx))
              | .pa_item _ =>
                  resolve sub imm m2
                    (insertRegion
                      (addDiag st1 "named region not allowed in this context")
                      rid (.re_param idx))
              | .pa_block _ =>
                  resolve sub imm m2
                    (insertRegion
                      (addDiag st1 ("unknown region `" ++ name ++ "`"))
                      rid (.re_param idx))
              | .pa_crate => .error "named region at crate level?!"
  | .pat_ident i, imm, m, st =>
      match mapFind imm.def_map i with
      | some (.def_variant _ _) => .ok (st, m)
      | _ =>
          if imm.in_alt then
            .ok (st, ⟨m.bindings, m.queued_locals ++ [i], m.next_param_id⟩)
          else
            match imm.parent with
            | .pa_block block_id => .ok (insertLocal st i block_id, m)
            | _ => .error "unexpected parent"
  | .pat_tup _ subs, imm, m, st => resolve subs imm m st
  | .expr_lit _, _, m, st => .ok (st, m)
  | .expr_addr_of _ sub, imm, m, st =>
      match imm.parent with
      | .pa_block blk_id =>
          resolve sub imm m (insertRvalue st sub.nid blk_id)
      | _ => .error "expr outside of block?!"
  | .expr_alt _ scrut arms, imm, m, st =>
      match imm.parent with
      | .pa_block blk_id => do
          let (st1, m1) ← resolve scrut imm m (insertRvalue st scrut.nid blk_id)
          resolve arms imm m1 st1
      | _ => .error "expr outside of block?!"
  | .expr_fn_block i args body, imm, m, st => do
      let st1 := record_parent imm st i
      let imm1 : Imm := ⟨imm.def_map, .pa_nested_fn i, false, imm.in_typeclass⟩
      let (st2, m1) ← resolve args imm1 m st1
      let (st3, _) ← resolve body imm1 m1 st2
      .ok (st3, m)
  | .blk i stmts, imm, m, st => do
      let st1 := record_parent imm st i
      let st2 := drainLocals m.queued_locals i st1
      let imm1 : Imm := ⟨imm.def_map, .pa_block i, false, imm.in_typeclass⟩
      let (st3, _) ← resolve stmts imm1 ⟨m.bindings, [], m.next_param_id⟩ st2
      .ok (st3, m)
  | .stmt_local i t p, imm, m, st =>
      match imm.parent with
      | .pa_block blk_id => do
          let (st1, m1) ← resolve p imm m (insertRvalue st i blk_id)
          resolve t imm m1 st1
      | _ => .error "local outside of block?!"
  | .arm pats guard body, imm, m, st => do
      let imm1 : Imm := ⟨imm.def_map, imm.parent, true, imm.in_typeclass⟩
      let (st1, m1) ← resolve pats imm1 ⟨m.bindings, [], m.next_param_id⟩ st
      let (st2, m2) ← resolve guard imm1 m1 st1
      let (st3, _) ← resolve body imm1 m2 st2
      .ok (st3, m)
  | .item_fn i args body, imm, m, st => do
      let imm1 : Imm := ⟨imm.def_map, .pa_fn_item i, false, false⟩
      let (st1, m1) ← resolve args imm1 ⟨[], m.queued_locals, 0⟩ st
      let (st2, _) ← resolve body imm1 m1 st1
      .ok (st2, m)
  | .item_enum i tys, imm, m, st => do
      let imm1 : Imm := ⟨imm.def_map, .pa_fn_item i, false, false⟩
      let (st1, _) ← resolve tys imm1 ⟨[], m.queued_locals, 0⟩ st
      .ok (st1, m)
  | .item_impl i tys, imm, m, st => do
      let imm1 : Imm := ⟨imm.def_map, .pa_item i, false, true⟩
      let (st1, _) ← resolve tys imm1 ⟨[], m.queued_locals, 0⟩ st
      .ok (st1, m)
  | .item_other i tys, imm, m, st => do
      let imm1 : Imm := ⟨imm.def_map, .pa_item i, false, false⟩
      let (st1, _) ← resolve tys imm1 ⟨[], m.queued_locals, 0⟩ st
      .ok (st1, m)
  | .seq_nil, _, m, st => .ok (st, m)
  | .seq_cons hd tl, imm, m, st => do
      let (st1, m1) ← resolve hd imm m st
      resolve tl imm m1 st1

/-- `resolve_crate`: run the walk over the crate's items from the initial
context (`pa_crate`, empty bindings, empty queue, counter 0). -/
def resolve_crate (def_map : List (Nat × Def)) (items : Ast) :
    Except String St :=
  match resolve items ⟨def_map, .pa_crate, false, false⟩ ⟨[], [], 0⟩ St.empty
    with
  | .ok (st, _) => .ok st
  | .error e => .error e

/-- `scope_contains`, with an explicit step budget standing in for the
termination argument (the walk terminates on an acyclic finite forest):
`none` means the budget ran out, `some b` the loop's answer. -/
def scope_contains (parents : List (Nat × Nat)) (superscope subscope : Nat) :
    Nat → Option Bool
  | 0 => none
  | fuel + 1 =>
      if superscope = subscope then some true
      else
        match mapFind parents subscope with
        | none => some false
        | some scope => scope_contains parents superscope scope fuel

/-- The `ancestors_of` loop of `nearest_common_ancestor`: the chain from a
scope up to its root, self first, root last (step budget as above). -/
def ancestors_of_loop (parents : List (Nat × Nat)) (acc : List Nat)
    (scope : Nat) : Nat → Option (List Nat)
  | 0 => none
  | fuel + 1 =>
      match mapFind parents scope with
      | none => some acc
      | some superscope =>
          ancestors_of_loop parents (acc ++ [superscope]) superscope fuel

def ancestors_of (parents : List (Nat × Nat)) (scope : Nat) (fuel : Nat) :
    Option (List Nat) :=
  ancestors_of_loop parents [scope] scope fuel

/-- Bounds-checked vector indexing: `none` models the runtime bounds
failure of `v[i]`. -/
def vecGet : List Nat → Nat → Option Nat
  | [], _ => none
  | x :: _, 0 => some x
  | _ :: t, i + 1 => vecGet t i

/-- `x - 1u` on a 64-bit `uint`: wraps around at zero. -/
def decWrap (x : Nat) : Nat := (x + (wordModulus - 1)) % wordModulus

/-- The lock-step comparison loop of `nearest_common_ancestor`, walking both
indices downwards (with unsigned wraparound) while the entries are equal.
`.error` reports either a bounds failure on an index read or budget
exhaustion. -/
def nca_loop (a_ancestors b_ancestors : List Nat) :
    Nat → Nat → Nat → Except String (Nat × Nat)
  | _, _, 0 => .error "out of fuel"
  | a_index, b_index, fuel + 1 =>
      match vecGet a_ancestors a_index, vecGet b_ancestors b_index with
      | some x, some y =>
          if x = y then
            nca_loop a_ancestors b_ancestors
              (decWrap a_index) (decWrap b_index) fuel
          else .ok (a_index, b_index)
      | _, _ => .error "vector index out of bounds"

/-- `nearest_common_ancestor`, as written: build both ancestor chains,
start both indices at `len - 1`, walk them down in lock step while equal,
then answer `a_ancestors[a_index + 1u]` (or `none` if the dead
`a_index == len` check were ever reached). -/
def nearest_common_ancestor (parents : List (Nat × Nat))
    (scope_a scope_b : Nat) (fuel : Nat) : Except String (Option Nat) :=
  if scope_a = scope_b then .ok (some scope_a)
  else
    match ancestors_of parents scope_a fuel,
          ancestors_of parents scope_b fuel with
    | some a_ancestors, some b_ancestors =>
        match nca_loop a_ancestors b_ancestors
            (a_ancestors.length - 1) (b_ancestors.length - 1) fuel with
        | .error e => .error e
        | .ok (a_index, _) =>
            if a_index = a_ancestors.length then .ok none
            else
              match vecGet a_ancestors ((a_index + 1) % wordModulus) with
              | some v => .ok (some v)
              | none => .error "vector index out of bounds"
    | _, _ => .error "out of fuel"

end RegionPass

namespace RegionPass

/-! ### Auxiliary definitions for the counter-accounting statements -/

/-- True for the two parent kinds at which `get_inferred_region` allocates a
fresh parameter index. -/
def isFnParent : Parent → Bool
  | .pa_fn_item _ => true
  | .pa_nested_fn _ => true
  | _ => false

/-- Structural predicate: the node is (entirely) a type annotation. -/
def isTy : Ast → Bool
  | .ty_nil _ => true
  | .ty_vec _ sub => isTy sub
  | .ty_rptr _ _ _ sub => isTy sub
  | _ => false

/-- Number of type-annotation nodes in a type tree. -/
def countTyNodes : Ast → Nat
  | .ty_nil _ => 1
  | .ty_vec _ sub => 1 + countTyNodes sub
  | .ty_rptr _ _ _ sub => 1 + countTyNodes sub
  | _ => 0

/-- The names of a binding stack, innermost first. -/
def bnames : List Binding → List String
  | [] => []
  | b :: t => b.name :: bnames t

/-- Count of named-region annotations that are *newly introduced* when the
type is visited with the given set of already-bound names (first occurrence
wins, visit order), together with the resulting name set. -/
def newNames : List String → Ast → Nat × List String
  | seen, .ty_vec _ sub => newNames seen sub
  | seen, .ty_rptr _ _ (.re_named nm) sub =>
      if nm ∈ seen then newNames seen sub
      else ((newNames (nm :: seen) sub).1 + 1, (newNames (nm :: seen) sub).2)
  | seen, .ty_rptr _ _ .re_inferred sub => newNames seen sub
  | seen, .ty_rptr _ _ .re_self sub => newNames seen sub
  | seen, _ => (0, seen)

theorem except_ok_bind {ε α β : Type} (v : α) (f : α → Except ε β) :
    ((Except.ok v : Except ε α) >>= f) = f v := rfl

theorem listFind_none_iff (bs : List Binding) (nm : String) :
    listFind bs nm = none ↔ ¬ nm ∈ bnames bs := by
  induction bs with
  | nil => simp [listFind, bnames]
  | cons x t ih =>
      by_cases hx : nm = x.name
      · simp [listFind, hx, bnames]
      · simp [listFind, hx, bnames, ih]

theorem gir_fn_parent (dm : List (Nat × Def)) (fp : Parent) (ia itc : Bool)
    (bs : List Binding) (q : List Nat) (n : Nat) (hfp : isFnParent fp = true) :
    get_inferred_region ⟨dm, fp, ia, itc⟩ ⟨bs, q, n⟩ =
      .ok (.re_param n, ⟨bs, q, n + 1⟩) := by
  cases fp <;> simp [isFnParent] at hfp <;> rfl

/-- C1: the claim states that `nearest_common_ancestor` handles the
one-scope-is-an-ancestor-of-the-other case by treating the walk past the
start of the shorter chain as the terminal condition, returning `none`
without the index arithmetic underflowing or reading outside either
ancestor array.  The code does not: in the two-scope forest in which scope
1 is the parent of scope 2 (so each chain is a suffix of the other),
`a_index` is decremented past 0 (wrapping to `2^64 - 1`) and the next loop
iteration reads outside the shorter ancestor array — a runtime bounds
failure, in both argument orders, rather than the `none` the specification
requires (the `a_index == len` check meant to catch this is unreachable). -/
theorem c1_nca_out_of_bounds :
    nearest_common_ancestor [(2, 1)] 1 2 10 =
      .error "vector index out of bounds" ∧
    nearest_common_ancestor [(2, 1)] 2 1 10 =
      .error "vector index out of bounds" ∧
    scope_contains [(2, 1)] 1 2 10 = some true := by
  exact ⟨rfl, rfl, rfl⟩

/-- C2 counterexample: the claim says a type annotation carrying no
lifetime position (a plain non-reference type) does not consume a parameter
index.  But `resolve_ty` calls `get_inferred_region` for *every* type node,
so resolving the plain type `ty_nil 5` at fn-item scope leaves the counter
at 1, not at the 0 the claim requires. -/
theorem c2_plain_type_consumes_index :
    ∃ st2,
      resolve (.ty_nil 5) ⟨[], .pa_fn_item 1, false, false⟩ ⟨[], [], 0⟩
          St.empty = .ok (st2, ⟨[], [], 1⟩) ∧
      (1 : Nat) ≠ 0 := by
  refine ⟨_, rfl, by decide⟩

/-- C2 (amended): within a declaration, at fn-item or nested-fn scope the
parameter-index counter advances once per *type-annotation node* visited
(the node's inferred-region default), plus once more per newly introduced
named lifetime; a named lifetime that reuses an existing binding consumes
no index beyond its node's own default, and the binding stack gains exactly
the newly introduced names. -/
theorem c2_counter_accounting :
    ∀ t : Ast, isTy t = true →
    ∀ dm fp ia itc bs q n st, isFnParent fp = true →
      ∃ st2 m2,
        resolve t ⟨dm, fp, ia, itc⟩ ⟨bs, q, n⟩ st = .ok (st2, m2) ∧
        m2.next_param_id = n + countTyNodes t + (newNames (bnames bs) t).1 ∧
        bnames m2.bindings = (newNames (bnames bs) t).2 := by
  intro t
  induction t with
  | ty_nil i =>
      intro _ dm fp ia itc bs q n st hfp
      refine ⟨insertInferred st i (.re_param n), ⟨bs, q, n + 1⟩, ?_, ?_, rfl⟩
      · simp [resolve, gir_fn_parent dm fp ia itc bs q n hfp, except_ok_bind]
      · simp [countTyNodes, newNames]
  | ty_vec i sub ih =>
      intro ht dm fp ia itc bs q n st hfp
      have hsub : isTy sub = true := by simpa [isTy] using ht
      obtain ⟨st2, m2, hres, hn, hb⟩ :=
        ih hsub dm fp ia itc bs q (n + 1)
          (insertInferred st i (.re_param n)) hfp
      refine ⟨st2, m2, ?_, ?_, ?_⟩
      · simpa [resolve, gir_fn_parent dm fp ia itc bs q n hfp, except_ok_bind]
          using hres
      · simp only [countTyNodes, newNames] at *
        omega
      · simpa [newNames] using hb
  | ty_rptr i rid ann sub ih =>
      intro ht dm fp ia itc bs q n st hfp
      have hsub : isTy sub = true := by simpa [isTy] using ht
      cases ann with
      | re_inferred =>
          obtain ⟨st2, m2, hres, hn, hb⟩ :=
            ih hsub dm fp ia itc bs q (n + 1)
              (insertInferred st i (.re_param n)) hfp
          refine ⟨st2, m2, ?_, ?_, ?_⟩
          · simpa [resolve, gir_fn_parent dm fp ia itc bs q n hfp,
              except_ok_bind] using hres
          · simp only [countTyNodes, newNames] at *
            omega
          · simpa [newNames] using hb
      | re_self =>
          cases itc with
          | false =>
              obtain ⟨st2, m2, hres, hn, hb⟩ :=
                ih hsub dm fp ia false bs q (n + 1)
                  (addDiag (insertInferred st i (.re_param n))
                    "the `self` region is not allowed here") hfp
              refine ⟨st2, m2, ?_, ?_, ?_⟩
              · simpa [resolve, gir_fn_parent dm fp ia false bs q n hfp,
                  except_ok_bind] using hres
              · simp only [countTyNodes, newNames] at *
                omega
              · simpa [newNames] using hb
          | true =>
              obtain ⟨st2, m2, hres, hn, hb⟩ :=
                ih hsub dm fp ia true bs q (n + 1)
                  (insertRegion (insertInferred st i (.re_param n)) rid
                    .re_self) hfp
              refine ⟨st2, m2, ?_, ?_, ?_⟩
              · simpa [resolve, gir_fn_parent dm fp ia true bs q n hfp,
                  except_ok_bind] using hres
              · simp only [countTyNodes, newNames] at *
                omega
              · simpa [newNames] using hb
      | re_named nm =>
          cases hfind : listFind bs nm with
          | some bnd =>
              have hmem : nm ∈ bnames bs := by
                by_contra hc
                rw [← listFind_none_iff bs nm] at hc
                rw [hc] at hfind
                cases hfind
              obtain ⟨st2, m2, hres, hn, hb⟩ :=
                ih hsub dm fp ia itc bs q (n + 1)
                  (insertRegion (insertInferred st i (.re_param n)) rid
                    (.re_param bnd.id)) hfp
              refine ⟨st2, m2, ?_, ?_, ?_⟩
              · simpa [resolve, gir_fn_parent dm fp ia itc bs q n hfp,
                  except_ok_bind, hfind] using hres
              · simp only [countTyNodes, newNames, hmem, if_pos] at *
                omega
              · simp only [newNames, hmem, if_pos] at *
                exact hb
          | none =>
              have hnot : ¬ nm ∈ bnames bs := (listFind_none_iff bs nm).mp hfind
              obtain ⟨st2, m2, hres, hn, hb⟩ :=
                ih hsub dm fp ia itc (⟨nm, n + 1⟩ :: bs) q (n + 2)
                  (insertRegion (insertInferred st i (.re_param n)) rid
                    (.re_param (n + 1))) hfp
              refine ⟨st2, m2, ?_, ?_, ?_⟩
              · cases fp with
                | pa_fn_item f =>
                    simpa [resolve, get_inferred_region, except_ok_bind,
                      hfind] using hres
                | pa_nested_fn f =>
                    simpa [resolve, get_inferred_region, except_ok_bind,
                      hfind] using hres
                | pa_block b => simp [isFnParent] at hfp
                | pa_item it => simp [isFnParent] at hfp
                | pa_crate => simp [isFnParent] at hfp
              · simp only [countTyNodes, newNames, hnot, if_neg,
                  not_false_iff, bnames] at *
                omega
              · simp only [newNames, hnot, if_neg, not_false_iff, bnames] at *
                exact hb
  | pat_ident i => intro ht; simp [isTy] at ht
  | pat_tup i subs ih => intro ht; simp [isTy] at ht
  | expr_lit i => intro ht; simp [isTy] at ht
  | expr_addr_of i sub ih => intro ht; simp [isTy] at ht
  | expr_alt i scrut arms ih1 ih2 => intro ht; simp [isTy] at ht
  | expr_fn_block i args body ih1 ih2 => intro ht; simp [isTy] at ht
  | blk i stmts ih => intro ht; simp [isTy] at ht
  | stmt_local i t p ih1 ih2 => intro ht; simp [isTy] at ht
  | arm pats guard body ih1 ih2 ih3 => intro ht; simp [isTy] at ht
  | item_fn i args body ih1 ih2 => intro ht; simp [isTy] at ht
  | item_enum i tys ih => intro ht; simp [isTy] at ht
  | item_impl i tys ih => intro ht; simp [isTy] at ht
  | item_other i tys ih => intro ht; simp [isTy] at ht
  | seq_nil => intro ht; simp [isTy] at ht
  | seq_cons hd tl ih1 ih2 => intro ht; simp [isTy] at ht

theorem c2_counter_accounting_witness :
    ∃ st2 m2,
      resolve (.ty_rptr 1 2 (.re_named "a") (.ty_nil 3))
          ⟨[], .pa_fn_item 9, false, false⟩ ⟨[], [], 0⟩ St.empty =
        .ok (st2, m2) ∧
      m2.next_param_id =
        0 + countTyNodes (.ty_rptr 1 2 (.re_named "a") (.ty_nil 3)) +
          (newNames (bnames []) (.ty_rptr 1 2 (.re_named "a") (.ty_nil 3))).1 ∧
      bnames m2.bindings =
        (newNames (bnames []) (.ty_rptr 1 2 (.re_named "a") (.ty_nil 3))).2 :=
  c2_counter_accounting (.ty_rptr 1 2 (.re_named "a") (.ty_nil 3)) rfl
    [] (.pa_fn_item 9) false false [] [] 0 St.empty rfl

/-- C6: for a type-annotation node, the stored inferred-region default is
determined by the current scope tag: a freshly allocated
`re_param next_param_id` (advancing the counter) at fn-item or nested-fn
scope, `re_block` of the current block at block scope, `re_param 0` without
touching the counter at other-item scope, and a fatal internal error at
crate scope. -/
theorem c6_inferred_default_by_scope :
    ∀ dm ia itc bs q n st tid f g b i,
      (resolve (.ty_nil tid) ⟨dm, .pa_fn_item f, ia, itc⟩ ⟨bs, q, n⟩ st =
        .ok (insertInferred st tid (.re_param n), ⟨bs, q, n + 1⟩)) ∧
      (resolve (.ty_nil tid) ⟨dm, .pa_nested_fn g, ia, itc⟩ ⟨bs, q, n⟩ st =
        .ok (insertInferred st tid (.re_param n), ⟨bs, q, n + 1⟩)) ∧
      (resolve (.ty_nil tid) ⟨dm, .pa_block b, ia, itc⟩ ⟨bs, q, n⟩ st =
        .ok (insertInferred st tid (.re_block b), ⟨bs, q, n⟩)) ∧
      (resolve (.ty_nil tid) ⟨dm, .pa_item i, ia, itc⟩ ⟨bs, q, n⟩ st =
        .ok (insertInferred st tid (.re_param 0), ⟨bs, q, n⟩)) ∧
      (resolve (.ty_nil tid) ⟨dm, .pa_crate, ia, itc⟩ ⟨bs, q, n⟩ st =
        .error "inferred region at crate level?!") := by
  intro dm ia itc bs q n st tid f g b i
  exact ⟨rfl, rfl, rfl, rfl, rfl⟩

/-- C9: an identifier pattern whose node id has no entry at all in the
definition map is treated as a genuine local binding: queued when inside a
match pattern, otherwise recorded in `local_blocks` under the current
block. -/
theorem c9_no_def_entry_is_local :
    ∀ dm pid p b itc bs q n st,
      mapFind dm pid = none →
      (resolve (.pat_ident pid) ⟨dm, p, true, itc⟩ ⟨bs, q, n⟩ st =
        .ok (st, ⟨bs, q ++ [pid], n⟩)) ∧
      (resolve (.pat_ident pid) ⟨dm, .pa_block b, false, itc⟩ ⟨bs, q, n⟩ st =
        .ok (insertLocal st pid b, ⟨bs, q, n⟩)) := by
  intro dm pid p b itc bs q n st h
  constructor <;> simp [resolve, h]

theorem c9_no_def_entry_is_local_witness :
    (resolve (.pat_ident 7) ⟨[], .pa_crate, true, false⟩ ⟨[], [], 0⟩ St.empty =
      .ok (St.empty, ⟨[], [7], 0⟩)) ∧
    (resolve (.pat_ident 7) ⟨[], .pa_block 3, false, false⟩ ⟨[], [], 0⟩
        St.empty = .ok (insertLocal St.empty 7 3, ⟨[], [], 0⟩)) :=
  ⟨(c9_no_def_entry_is_local [] 7 .pa_crate 3 false [] [] 0 St.empty rfl).1,
   (c9_no_def_entry_is_local [] 7 .pa_crate 3 false [] [] 0 St.empty rfl).2⟩

end RegionPass

namespace RegionPass

theorem scope_contains_mono :
    ∀ (pm : List (Nat × Nat)) (a fuel fuel' b : Nat),
      fuel ≤ fuel' → scope_contains pm a b fuel = some true →
      scope_contains pm a b fuel' = some true := by
  intro pm a fuel
  induction fuel with
  | zero => intro fuel' b _ h; simp [scope_contains] at h
  | succ k ih =>
      intro fuel' b hle h
      obtain ⟨k', rfl⟩ : ∃ k', fuel' = k' + 1 := ⟨fuel' - 1, by omega⟩
      by_cases hab : a = b
      · simp [scope_contains, hab]
      · simp only [scope_contains, if_neg hab] at h ⊢
        cases hf : mapFind pm b with
        | none => rw [hf] at h; simp at h
        | some s =>
            rw [hf] at h
            exact ih k' s (by omega) h

/-- C8: `scope_contains` (which walks the parent chain upward from its
second scope argument) is transitive: if the walk from `b` reaches `a` and
the walk from `c` reaches `b`, then the walk from `c` reaches `a`.  The
step budgets stand in for the termination argument (acyclic finite forest);
the composite walk needs no more than the sum of the two budgets. -/
theorem c8_contains_trans (pm : List (Nat × Nat)) (a b n : Nat) :
    ∀ (m c : Nat),
      scope_contains pm a b n = some true →
      scope_contains pm b c m = some true →
      scope_contains pm a c (n + m) = some true := by
  intro m
  induction m with
  | zero => intro c _ h; simp [scope_contains] at h
  | succ k ih =>
      intro c hab hbc
      by_cases hbc0 : b = c
      · rw [← hbc0]
        exact scope_contains_mono pm a n (n + (k + 1)) b (by omega) hab
      · simp only [scope_contains, if_neg hbc0] at hbc
        cases hf : mapFind pm c with
        | none => rw [hf] at hbc; simp at hbc
        | some s =>
            rw [hf] at hbc
            have hac := ih s hab hbc
            by_cases hac0 : a = c
            · simp [scope_contains, hac0]
            · have : n + (k + 1) = (n + k) + 1 := by omega
              rw [this]
              simp only [scope_contains, if_neg hac0, hf]
              exact hac

theorem c8_contains_trans_witness :
    scope_contains [(2, 1), (3, 2)] 1 3 (5 + 5) = some true :=
  c8_contains_trans [(2, 1), (3, 2)] 1 2 5 5 3 rfl rfl

/-- C7: a local variable bound inside a match arm's pattern (an identifier
pattern whose definition is not an enum-variant constructor, visited with
the in-alt flag set by `resolve_arm`) is mapped in `local_blocks` to the
arm's own body block, not to the block enclosing the alt expression: the
pattern is queued, and the arm's body block — the next block visited —
drains the queue into `local_blocks` under its own id. -/
theorem c7_arm_pattern_local_owner :
    ∀ dm B pid bid ia itc bs q n st,
      (∀ e v, mapFind dm pid ≠ some (.def_variant e v)) →
      bid ≠ B →
      resolve (.arm (.seq_cons (.pat_ident pid) .seq_nil) .seq_nil
          (.blk bid .seq_nil))
        ⟨dm, .pa_block B, ia, itc⟩ ⟨bs, q, n⟩ st =
        .ok (insertLocal (insertParent st bid B) pid bid, ⟨bs, q, n⟩) ∧
      mapFind (insertLocal (insertParent st bid B) pid bid).local_blocks pid =
        some bid ∧
      mapFind (insertLocal (insertParent st bid B) pid bid).local_blocks pid ≠
        some B := by
  intro dm B pid bid ia itc bs q n st hdef hne
  refine ⟨?_, ?_, ?_⟩
  · cases hf : mapFind dm pid with
    | none => simp [resolve, hf, except_ok_bind, drainLocals, record_parent]
    | some d =>
        cases d with
        | def_variant e v => exact absurd hf (hdef e v)
        | def_other =>
            simp [resolve, hf, except_ok_bind, drainLocals, record_parent]
  · simp [insertLocal, insertParent, mapInsert, mapFind]
  · simp [insertLocal, insertParent, mapInsert, mapFind, hne]

theorem c7_arm_pattern_local_owner_witness :
    resolve (.arm (.seq_cons (.pat_ident 7) .seq_nil) .seq_nil
        (.blk 60 .seq_nil))
      ⟨[], .pa_block 1, false, false⟩ ⟨[], [], 0⟩ St.empty =
      .ok (insertLocal (insertParent St.empty 60 1) 7 60, ⟨[], [], 0⟩) ∧
    mapFind (insertLocal (insertParent St.empty 60 1) 7 60).local_blocks 7 =
      some 60 ∧
    mapFind (insertLocal (insertParent St.empty 60 1) 7 60).local_blocks 7 ≠
      some 1 :=
  c7_arm_pattern_local_owner [] 1 7 60 false false [] [] 0 St.empty
    (fun e v h => by cases h) (by decide)

/-- C10 counterexample: the claim says a queued local is consumed by
exactly the first block entered after it was queued and is never recorded
by any later or more deeply nested block.  In an arm whose pattern binds
local 7 and whose guard contains a function literal with body block 50, the
first block entered after queuing is 50 (a nested fn literal does *not*
empty the inherited queue), yet the local is recorded again by the arm's
later body block 60: `local_blocks` holds both records, and the final
entry is block 60, not the first-entered block 50. -/
theorem c10_counterexample :
    ∃ st2,
      resolve (.arm (.seq_cons (.pat_ident 7) .seq_nil)
          (.seq_cons (.expr_fn_block 8 .seq_nil (.blk 50 .seq_nil)) .seq_nil)
          (.blk 60 .seq_nil))
        ⟨[], .pa_block 1, false, false⟩ ⟨[], [], 0⟩ St.empty =
        .ok (st2, ⟨[], [], 0⟩) ∧
      st2.local_blocks = [(7, 60), (7, 50)] ∧
      mapFind st2.local_blocks 7 ≠ some 50 := by
  refine ⟨_, rfl, rfl, by decide⟩

/-- C10 (amended): entering a block empties the queued-locals list for its
descendants and clears the in-alt flag, and entering a nested function
literal clears the flag but passes the queued-locals list through
unchanged; hence a queued local is recorded under *every* block entered
while the queue is live — here first the guard closure's body block, then
the arm's own body block — and the final winning `local_blocks` entry is
the last such block, the arm's body block. -/
theorem c10_queue_passes_through_fn_literal :
    ∀ dm B pid fid gbid bid ia itc bs q n st,
      mapFind dm pid = none →
      ∃ st2,
        resolve (.arm (.seq_cons (.pat_ident pid) .seq_nil)
            (.seq_cons (.expr_fn_block fid .seq_nil (.blk gbid .seq_nil))
              .seq_nil)
            (.blk bid .seq_nil))
          ⟨dm, .pa_block B, ia, itc⟩ ⟨bs, q, n⟩ st = .ok (st2, ⟨bs, q, n⟩) ∧
        st2.local_blocks = (pid, bid) :: (pid, gbid) :: st.local_blocks ∧
        mapFind st2.local_blocks pid = some bid := by
  intro dm B pid fid gbid bid ia itc bs q n st h
  refine ⟨insertLocal (insertParent (insertLocal (insertParent (insertParent
    st fid B) gbid fid) pid gbid) bid B) pid bid, ?_, ?_, ?_⟩
  · simp [resolve, h, except_ok_bind, drainLocals, record_parent]
  · simp [insertLocal, insertParent, mapInsert]
  · simp [insertLocal, insertParent, mapInsert, mapFind]

theorem c10_queue_passes_through_fn_literal_witness :
    ∃ st2,
      resolve (.arm (.seq_cons (.pat_ident 17) .seq_nil)
          (.seq_cons (.expr_fn_block 18 .seq_nil (.blk 51 .seq_nil)) .seq_nil)
          (.blk 61 .seq_nil))
        ⟨[], .pa_block 2, false, false⟩ ⟨[], [], 0⟩ St.empty =
        .ok (st2, ⟨[], [], 0⟩) ∧
      st2.local_blocks = (17, 61) :: (17, 51) :: St.empty.local_blocks ∧
      mapFind st2.local_blocks 17 = some 61 :=
  c10_queue_passes_through_fn_literal [] 2 17 18 51 61 false false [] [] 0
    St.empty rfl

end RegionPass

namespace RegionPass

theorem drainLocals_inferred :
    ∀ (q : List Nat) (b : Nat) (st : St),
      (drainLocals q b st).ast_type_to_inferred_region =
        st.ast_type_to_inferred_region := by
  intro q
  induction q with
  | nil => intro b st; rfl
  | cons x t ih => intro b st; simp [drainLocals, ih, insertLocal]

theorem drainLocals_region :
    ∀ (q : List Nat) (b : Nat) (st : St),
      (drainLocals q b st).ast_type_to_region = st.ast_type_to_region := by
  intro q
  induction q with
  | nil => intro b st; rfl
  | cons x t ih => intro b st; simp [drainLocals, ih, insertLocal]

/-- C3 counterexample: the claim says that on every recoverable lifetime
diagnostic the `ast_type_to_region` entry for the node is left absent.  For
a named marker unknown at block scope the code reports the diagnostic but
still inserts the entry (with a freshly allocated parameter region): after
resolving `&a` at block scope the map holds `re_param 0` for the marker
node. -/
theorem c3_counterexample :
    ∃ st2 m2,
      resolve (.ty_rptr 30 31 (.re_named "a") (.ty_nil 32))
          ⟨[], .pa_block 9, false, false⟩ ⟨[], [], 0⟩ St.empty =
        .ok (st2, m2) ∧
      st2.diags = ["unknown region `a`"] ∧
      mapFind st2.ast_type_to_region 31 = some (.re_param 0) := by
  refine ⟨_, _, rfl, rfl, rfl⟩

/-- C3 (amended): each of the three recoverable lifetime diagnostics (self
marker outside trait-implementation context; named marker newly introduced
at other-item scope; named marker not found at block scope) is reported to
the diagnostics sink, the walk continues into the node's children (the
sub-type's inferred default is still recorded and the traversal returns
normally), and the `ast_type_to_region` entry is left absent in the
self-marker case — but in the two named-marker error cases the entry is
nevertheless inserted, with the freshly allocated parameter region. -/
theorem c3_recoverable_diagnostics :
    ∀ dm f it b ia itc tid rid sid nm bs q n st,
      listFind bs nm = none →
      (∃ st2,
        resolve (.ty_rptr tid rid .re_self (.ty_nil sid))
            ⟨dm, .pa_fn_item f, ia, false⟩ ⟨bs, q, n⟩ st =
          .ok (st2, ⟨bs, q, n + 2⟩) ∧
        st2.ast_type_to_region = st.ast_type_to_region ∧
        st2.diags = "the `self` region is not allowed here" :: st.diags ∧
        st2.ast_type_to_inferred_region =
          (sid, .re_param (n + 1)) :: (tid, .re_param n) ::
            st.ast_type_to_inferred_region) ∧
      (∃ st3,
        resolve (.ty_rptr tid rid (.re_named nm) (.ty_nil sid))
            ⟨dm, .pa_item it, ia, itc⟩ ⟨bs, q, n⟩ st =
          .ok (st3, ⟨⟨nm, n⟩ :: bs, q, n + 1⟩) ∧
        st3.ast_type_to_region = (rid, .re_param n) :: st.ast_type_to_region ∧
        st3.diags = "named region not allowed in this context" :: st.diags ∧
        st3.ast_type_to_inferred_region =
          (sid, .re_param 0) :: (tid, .re_param 0) ::
            st.ast_type_to_inferred_region) ∧
      (∃ st4,
        resolve (.ty_rptr tid rid (.re_named nm) (.ty_nil sid))
            ⟨dm, .pa_block b, ia, itc⟩ ⟨bs, q, n⟩ st =
          .ok (st4, ⟨⟨nm, n⟩ :: bs, q, n + 1⟩) ∧
        st4.ast_type_to_region = (rid, .re_param n) :: st.ast_type_to_region ∧
        st4.diags = ("unknown region `" ++ nm ++ "`") :: st.diags ∧
        st4.ast_type_to_inferred_region =
          (sid, .re_block b) :: (tid, .re_block b) ::
            st.ast_type_to_inferred_region) := by
  intro dm f it b ia itc tid rid sid nm bs q n st hfind
  refine ⟨⟨_, rfl, rfl, rfl, rfl⟩, ⟨?_, ?_, ?_⟩, ⟨?_, ?_, ?_⟩⟩
  · exact insertInferred (insertRegion (addDiag (insertInferred st tid
      (.re_param 0)) "named region not allowed in this context") rid
      (.re_param n)) sid (.re_param 0)
  · simp [resolve, get_inferred_region, except_ok_bind, hfind]
  · exact ⟨rfl, rfl, rfl⟩
  · exact insertInferred (insertRegion (addDiag (insertInferred st tid
      (.re_block b)) ("unknown region `" ++ nm ++ "`")) rid
      (.re_param n)) sid (.re_block b)
  · simp [resolve, get_inferred_region, except_ok_bind, hfind]
  · exact ⟨rfl, rfl, rfl⟩

theorem c3_recoverable_diagnostics_witness :
    ∃ st2,
      resolve (.ty_rptr 30 31 .re_self (.ty_nil 32))
          ⟨[], .pa_fn_item 1, false, false⟩ ⟨[], [], 0⟩ St.empty =
        .ok (st2, ⟨[], [], 2⟩) ∧
      st2.ast_type_to_region = St.empty.ast_type_to_region ∧
      st2.diags = "the `self` region is not allowed here" :: St.empty.diags ∧
      st2.ast_type_to_inferred_region =
        (32, .re_param 1) :: (30, .re_param 0) ::
          St.empty.ast_type_to_inferred_region :=
  (c3_recoverable_diagnostics [] 1 2 9 false false 30 31 32 "z" [] [] 0
    St.empty rfl).1

/-- C4 counterexample: the claim says that within one declaration no
parameter index allocated inside a nested closure is ever allocated again
to a later lifetime occurrence in the same declaration.  But the
`{... with cx}` functional update *copies* the counter into the closure's
fresh context record, so increments made inside the closure never reach the
enclosing declaration's record: in a fn whose body holds two sibling
closures, the elided lifetime of the first closure's argument type (node
10) and that of the second (node 20) are both assigned parameter index
0. -/
theorem c4_counterexample :
    ∃ st,
      resolve_crate []
        (.seq_cons (.item_fn 1 .seq_nil (.blk 2 (.seq_cons
          (.expr_fn_block 3 (.seq_cons (.ty_nil 10) .seq_nil)
            (.blk 4 .seq_nil))
          (.seq_cons
            (.expr_fn_block 5 (.seq_cons (.ty_nil 20) .seq_nil)
              (.blk 6 .seq_nil))
            .seq_nil)))) .seq_nil) = .ok st ∧
      mapFind st.ast_type_to_inferred_region 10 = some (.re_param 0) ∧
      mapFind st.ast_type_to_inferred_region 20 = some (.re_param 0) ∧
      (10 : Nat) ≠ 20 := by
  refine ⟨_, rfl, rfl, rfl, by decide⟩

/-- C4 (amended): the parameter-index counter is reset to zero on entering
a top-level declaration (whatever the caller's counter was, the first
signature type gets index 0), and a nested closure starts from the current
value of the counter rather than from zero (its first argument type gets
the current index `n`); but the closure receives a *copy*: the caller's
cell is returned unchanged, so allocations inside the closure do not
advance the enclosing declaration's counter and its indices may be
reallocated later in the same declaration. -/
theorem c4_counter_reset_and_copy :
    ∀ dm p B ia itc bs q n st fid t1 bid b2,
      (resolve (.item_fn fid (.seq_cons (.ty_nil t1) .seq_nil)
          (.blk bid .seq_nil)) ⟨dm, p, ia, itc⟩ ⟨bs, q, n⟩ st =
        .ok (drainLocals q bid
              (insertParent (insertInferred st t1 (.re_param 0)) bid fid),
            ⟨bs, q, n⟩)) ∧
      mapFind (drainLocals q bid (insertParent (insertInferred st t1
          (.re_param 0)) bid fid)).ast_type_to_inferred_region t1 =
        some (.re_param 0) ∧
      (resolve (.expr_fn_block fid (.seq_cons (.ty_nil t1) .seq_nil)
          (.blk b2 .seq_nil)) ⟨dm, .pa_block B, ia, itc⟩ ⟨bs, q, n⟩ st =
        .ok (drainLocals q b2 (insertParent (insertInferred
              (insertParent st fid B) t1 (.re_param n)) b2 fid),
            ⟨bs, q, n⟩)) ∧
      mapFind (drainLocals q b2 (insertParent (insertInferred
          (insertParent st fid B) t1
            (.re_param n)) b2 fid)).ast_type_to_inferred_region t1 =
        some (.re_param n) := by
  intro dm p B ia itc bs q n st fid t1 bid b2
  refine ⟨rfl, ?_, rfl, ?_⟩
  · simp [drainLocals_inferred, insertParent, insertInferred, mapInsert,
      mapFind]
  · simp [drainLocals_inferred, insertParent, insertInferred, mapInsert,
      mapFind]

/-- C5 counterexample: the claim says a named lifetime marker always
resolves to the index bound at the name's first occurrence within the
enclosing top-level declaration.  In a fn whose body holds two sibling
closures, `b` first occurs in the first closure and is bound to index 4
(marker node 14), but its later occurrence in the second closure (marker
node 21) resolves to the fresh index 1 — the first closure's binding was
made in a copied context record and never escaped it. -/
theorem c5_counterexample :
    ∃ st,
      resolve_crate []
        (.seq_cons (.item_fn 1 .seq_nil (.blk 2 (.seq_cons
          (.expr_fn_block 3
            (.seq_cons (.ty_rptr 10 11 (.re_named "a") (.ty_nil 12))
              (.seq_cons (.ty_rptr 13 14 (.re_named "b") (.ty_nil 15))
                .seq_nil))
            (.blk 4 .seq_nil))
          (.seq_cons
            (.expr_fn_block 5
              (.seq_cons (.ty_rptr 20 21 (.re_named "b") (.ty_nil 22))
                .seq_nil)
              (.blk 6 .seq_nil))
            .seq_nil)))) .seq_nil) = .ok st ∧
      mapFind st.ast_type_to_region 14 = some (.re_param 4) ∧
      mapFind st.ast_type_to_region 21 = some (.re_param 1) ∧
      Region.re_param 1 ≠ Region.re_param 4 := by
  refine ⟨_, rfl, rfl, rfl, by decide⟩

/-- C5 (amended): within one declaration's signature the same named
lifetime resolves to the same parameter index both times (here both marker
nodes resolve to `re_param 1`), and a named lifetime declared in an outer
fn and referenced, unshadowed, inside a nested closure resolves to the
outer fn's index rather than a fresh one (again both markers resolve to
`re_param 1`); bindings made inside a nested closure, however, do not
escape it. -/
theorem c5_named_binding_reuse :
    ∀ dm p ia itc bs q n st fid bid b2 cid t1 r1 s1 t2 r2 s2 nm,
      (∃ st2,
        resolve (.item_fn fid
            (.seq_cons (.ty_rptr t1 r1 (.re_named nm) (.ty_nil s1))
              (.seq_cons (.ty_rptr t2 r2 (.re_named nm) (.ty_nil s2))
                .seq_nil))
            (.blk bid .seq_nil))
          ⟨dm, p, ia, itc⟩ ⟨bs, q, n⟩ st = .ok (st2, ⟨bs, q, n⟩) ∧
        st2.ast_type_to_region =
          (r2, .re_param 1) :: (r1, .re_param 1) :: st.ast_type_to_region) ∧
      (∃ st3,
        resolve (.item_fn fid
            (.seq_cons (.ty_rptr t1 r1 (.re_named nm) (.ty_nil s1)) .seq_nil)
            (.blk bid (.seq_cons
              (.expr_fn_block cid
                (.seq_cons (.ty_rptr t2 r2 (.re_named nm) (.ty_nil s2))
                  .seq_nil)
                (.blk b2 .seq_nil))
              .seq_nil)))
          ⟨dm, p, ia, itc⟩ ⟨bs, q, n⟩ st = .ok (st3, ⟨bs, q, n⟩) ∧
        st3.ast_type_to_region =
          (r2, .re_param 1) :: (r1, .re_param 1) :: st.ast_type_to_region) := by
  intro dm p ia itc bs q n st fid bid b2 cid t1 r1 s1 t2 r2 s2 nm
  constructor
  · refine ⟨drainLocals q bid (insertParent (insertInferred (insertRegion
      (insertInferred (insertInferred (insertRegion (insertInferred st t1
        (.re_param 0)) r1 (.re_param 1)) s1 (.re_param 2)) t2 (.re_param 3))
        r2 (.re_param 1)) s2 (.re_param 4)) bid fid), ?_, ?_⟩
    · simp [resolve, get_inferred_region, except_ok_bind, listFind,
        record_parent]
    · simp [drainLocals_region, insertParent, insertInferred, insertRegion,
        mapInsert]
  · refine ⟨insertParent (insertInferred (insertRegion (insertInferred
      (insertParent (drainLocals q bid (insertParent (insertInferred
        (insertRegion (insertInferred st t1 (.re_param 0)) r1 (.re_param 1))
        s1 (.re_param 2)) bid fid)) cid bid) t2 (.re_param 3)) r2
        (.re_param 1)) s2 (.re_param 4)) b2 cid, ?_, ?_⟩
    · simp [resolve, get_inferred_region, except_ok_bind, listFind,
        record_parent, drainLocals]
    · simp [drainLocals_region, insertParent, insertInferred, insertRegion,
        mapInsert]

end RegionPass
